import Mathlib

/-!
Shallow embedding of `rugix-common`'s image-extraction utilities
(`src/crates/libs/rugix-common/src/img_extract.rs` and
`src/crates/libs/rugix-common/src/partitions.rs`).

External effects (the `blkid`, `debugfs`, `mcopy`, `sfdisk` subprocesses and
filesystem I/O) are modelled by oracle parameters and an explicit event trace.
Disk images are modelled as lists of bytes (`List Nat`, each entry < 256 in
intended use; the byte bound is irrelevant to the claims).  Rust `u64`
arithmetic is `Nat` arithmetic reduced modulo `2 ^ 64` where the source
computes in `u64`, and the `as usize` cast is reduction modulo `2 ^ w` for a
platform-dependent pointer width `w`.
-/

namespace Rugix

/-- Filesystem type detected by probing the partition image
(`enum FsType` in `img_extract.rs`). -/
inductive FsType where
  | Fat : FsType
  | Ext : FsType
  | Unknown : String → FsType
  deriving DecidableEq, Repr

/-- Source `FsType::from_blkid_type`: convert a blkid TYPE string to `FsType`.
The Rust `match` with or-patterns on string literals is rendered as the
corresponding chain of decidable string comparisons. -/
def FsType.from_blkid_type (ty : String) : FsType :=
  if ty = "vfat" ∨ ty = "fat" ∨ ty = "fat12" ∨ ty = "fat16" ∨ ty = "fat32" ∨ ty = "msdos" then
    FsType.Fat
  else if ty = "ext2" ∨ ty = "ext3" ∨ ty = "ext4" then
    FsType.Ext
  else if ty = "" then
    FsType.Unknown "empty or unformatted"
  else
    FsType.Unknown ty

/-- Source `FsType::is_supported`: true only for `Fat` and `Ext`. -/
def FsType.is_supported : FsType → Bool
  | FsType.Fat => true
  | FsType.Ext => true
  | FsType.Unknown _ => false

/-- Rust `str::trim`: remove leading and trailing whitespace characters.
(Rust trims by Unicode `White_Space`; this model uses `Char.isWhitespace`,
which covers the ASCII whitespace that `blkid` and `sfdisk` can emit.) -/
def trim_model (s : String) : String :=
  String.mk (((s.data.dropWhile Char.isWhitespace).reverse.dropWhile
    Char.isWhitespace).reverse)

/-- Source `FsType::probe`, as a function of the stdout string produced by
`blkid -o value -s TYPE <image>`: the source trims the output and feeds it to
`from_blkid_type`.  (The subprocess launch itself is external; probe failure is
handled by an oracle in the orchestrator model.) -/
def FsType.probe_model (stdout : String) : FsType :=
  FsType.from_blkid_type (trim_model stdout)

/-- Rust `Debug` rendering of a `String` (the debug format of `ty` in the source's
bail messages): the string surrounded by double quotes.  Escaping of
special characters inside the string is not modelled. -/
def str_debug (s : String) : String :=
  "\"" ++ s ++ "\""

/-- Rust `Debug` rendering of `FsType` (the debug format of `fs_type` in the
source's error messages), as produced by `#[derive(Debug)]`. -/
def fs_debug : FsType → String
  | FsType.Fat => "Fat"
  | FsType.Ext => "Ext"
  | FsType.Unknown s => "Unknown(" ++ str_debug s ++ ")"

/-- Constant `CHUNK_SIZE` from `extract_partition`: 4 MiB. -/
def CHUNK_SIZE : Nat := 4 * 1024 * 1024

/-- The copy loop of `extract_partition`.  One iteration: `to_read` is
`min remaining CHUNK_SIZE`; a `read` on a regular file returns
`min to_read <bytes available after pos>` bytes (modelled by
`(img.drop pos).take to_read`); a zero-length read (EOF) breaks the loop;
otherwise the bytes read are appended to the destination, the file position
advances, and `remaining` decreases by the number of bytes read.

The Rust `while` loop is rendered with a fuel argument to keep the definition
structurally recursive and executable; since every non-final iteration reads
at least one byte, `remaining` itself is enough fuel (see
`copyLoop_spec`). -/
def copyLoop : Nat → List Nat → Nat → Nat → List Nat → List Nat
  | 0, _, _, _, acc => acc
  | fuel + 1, img, pos, remaining, acc =>
    if remaining = 0 then acc
    else
      let toRead := min remaining CHUNK_SIZE
      let chunk := (img.drop pos).take toRead
      if chunk.length = 0 then acc
      else copyLoop fuel img (pos + chunk.length) (remaining - chunk.length) (acc ++ chunk)

/-- Source `extract_partition`, parameterised by the platform pointer width `w`
(bits of Rust `usize`).  `partition.start.into_raw() * block_size.into_raw()`
and the `size` product are `u64` multiplications (reduced mod `2 ^ 64`);
`size_bytes as usize` reduces mod `2 ^ w`.  The function returns the byte
contents of the destination file (the source returns `Ok(())` after writing
them; I/O errors are outside this model).  `start` and `size` are the
partition's start offset and length in logical blocks. -/
def extract_partition_w (w : Nat) (img : List Nat) (start size block_size : Nat) :
    List Nat :=
  let start_bytes := start * block_size % 2 ^ 64
  let size_bytes := size * block_size % 2 ^ 64
  let remaining := size_bytes % 2 ^ w
  copyLoop remaining img start_bytes remaining []

/-- Source `extract_partition` on a 64-bit platform (`usize` = `u64`), the common
case. -/
def extract_partition (img : List Nat) (start size block_size : Nat) : List Nat :=
  extract_partition_w 64 img start size block_size

/-- Models `str::strip_prefix` as used by `get_disk_id` in `partitions.rs`,
specialised to the literal pattern `"0x"`: `some` of the remainder when the
string begins with `"0x"`, `none` otherwise. -/
def strip0x (s : String) : Option String :=
  if ("0x".data).isPrefixOf s.data then some (String.mk (s.data.drop "0x".data.length))
  else none

/-- Source `get_disk_id`, as a function of the string the subprocess runner returns
for `sfdisk --disk-id <path>` (the `sfdisk` invocation itself is external). -/
def get_disk_id (disk_id : String) : String :=
  match strip0x disk_id with
  | some dos_id => dos_id
  | none => disk_id

/-- Modelled from the spec: `Partition` (from `crate::disk`, whose source is
not in the repository snapshot) — "`number` (1-based integer identifying the
partition within the table), `start` (offset in logical blocks from image
start), `size` (length in logical blocks)"; `start` and `size` are `u64`
quantities (`NumBlocks`), `number` a `u8`, all rendered as `Nat`. -/
structure Partition where
  number : Nat
  start : Nat
  size : Nat
  deriving DecidableEq, Repr

/-- Modelled from the spec: `PartitionTable` (from `crate::disk`) — "an
ordered sequence of Partitions plus `block_size` (bytes per logical
block)". -/
structure PartitionTable where
  partitions : List Partition
  block_size : Nat
  deriving DecidableEq, Repr

/-- Observable effects of one orchestrator call, in order of occurrence.
`createTemp p` is the raw-copy step writing temp file `p` inside `temp_dir`
(the only kind of write into `temp_dir`); `probe p` is the `blkid` run on `p`;
`callExtractFs n fs` marks the invocation of `extract_filesystem` for
partition `n` with filesystem type `fs`; `createDirAll`, `canonicalize`,
`runDebugfs`, `runMcopy` are the effects inside `extract_filesystem`;
`logInfo n dst` is the `info!` line for partition `n`; `removeTemp p` is the
best-effort unlink of `p`. -/
inductive Ev where
  | readTable : Ev
  | createTemp : String → Ev
  | probe : String → Ev
  | callExtractFs : Nat → FsType → Ev
  | createDirAll : String → Ev
  | canonicalize : String → Ev
  | runDebugfs : String → Ev
  | runMcopy : String → Ev
  | logInfo : Nat → String → Ev
  | removeTemp : String → Ev
  deriving DecidableEq, Repr

/-- Source `extract_filesystem`, with the fallible external steps turned into oracle
booleans: `mkdirOk` is whether `create_dir_all(dst_dir)` succeeds, `canonOk`
whether canonicalising `partition_image` succeeds, `runOk` whether the
dispatched `debugfs`/`mcopy` subprocess exits successfully.  Returns the
event trace and `some <error message>` on failure (`none` = `Ok(())`). -/
def extract_filesystem (mkdirOk canonOk runOk : Bool)
    (partition_image dst_dir : String) (fs_type : FsType) : List Ev × Option String :=
  if mkdirOk = false then
    ([Ev.createDirAll dst_dir], some "unable to create destination directory")
  else if canonOk = false then
    ([Ev.createDirAll dst_dir, Ev.canonicalize partition_image],
     some "unable to canonicalize partition image path")
  else
    match fs_type with
    | FsType.Ext =>
      if runOk then
        ([Ev.createDirAll dst_dir, Ev.canonicalize partition_image, Ev.runDebugfs dst_dir],
         none)
      else
        ([Ev.createDirAll dst_dir, Ev.canonicalize partition_image, Ev.runDebugfs dst_dir],
         some "unable to extract ext filesystem with debugfs")
    | FsType.Fat =>
      if runOk then
        ([Ev.createDirAll dst_dir, Ev.canonicalize partition_image, Ev.runMcopy dst_dir],
         none)
      else
        ([Ev.createDirAll dst_dir, Ev.canonicalize partition_image, Ev.runMcopy dst_dir],
         some "unable to extract FAT filesystem with mcopy")
    | FsType.Unknown ty =>
      ([Ev.createDirAll dst_dir, Ev.canonicalize partition_image],
       some ("cannot extract filesystem: unsupported type " ++ str_debug ty))

/-- Per-partition environment for one orchestrator call: the outcomes of the
external steps, indexed by partition number.  `probeOk n` is whether `blkid`
itself succeeds on partition `n`'s temp image and `probeOut n` its stdout;
the remaining fields feed `extract_filesystem`.  The raw copy's own I/O is
assumed to succeed (its failure modes are plain error propagation before any
step the claims constrain). -/
structure Env where
  probeOk : Nat → Bool
  probeOut : Nat → String
  mkdirOk : Nat → Bool
  canonOk : Nat → Bool
  runOk : Nat → Bool

/-- The temp-file path the source builds by joining `temp_dir` with the
formatted name `partition-<part_num>.img`, given relative to `temp_dir`. -/
def temp_name (part_num : Nat) : String :=
  "partition-" ++ Nat.repr part_num ++ ".img"

/-- The body of the request loop of `extract_image_partitions` for one
`(part_num, dst_dir)` pair: look up the partition (fail if absent, naming the
number); raw-copy it into `temp_dir/partition-<part_num>.img`; probe the temp
image; on an unsupported type, best-effort delete the temp file and bail
naming the partition and the observed type; otherwise run
`extract_filesystem`, emit the `info!` line, and best-effort delete the temp
file. -/
def processOne (env : Env) (table : PartitionTable) (part_num : Nat)
    (dst_dir : String) : List Ev × Option String :=
  match table.partitions.find? (fun p => p.number == part_num) with
  | none => ([], some ("partition " ++ Nat.repr part_num ++ " not found in image"))
  | some _partition =>
    let path := temp_name part_num
    if env.probeOk part_num = false then
      ([Ev.createTemp path, Ev.probe path],
       some "unable to probe filesystem type with blkid")
    else
      let fs_type := FsType.from_blkid_type (trim_model (env.probeOut part_num))
      if fs_type.is_supported = false then
        -- Clean up before bailing (the unlink is best-effort: `.ok()`).
        ([Ev.createTemp path, Ev.probe path, Ev.removeTemp path],
         some ("partition " ++ Nat.repr part_num
           ++ " has unsupported filesystem type: " ++ fs_debug fs_type))
      else
        let r := extract_filesystem (env.mkdirOk part_num) (env.canonOk part_num)
          (env.runOk part_num) path dst_dir fs_type
        match r.2 with
        | some e =>
          ([Ev.createTemp path, Ev.probe path, Ev.callExtractFs part_num fs_type] ++ r.1,
           some e)
        | none =>
          ([Ev.createTemp path, Ev.probe path, Ev.callExtractFs part_num fs_type] ++ r.1
             ++ [Ev.logInfo part_num dst_dir, Ev.removeTemp path],
           none)

/-- The request loop of `extract_image_partitions`: processes
`(part_num, dst_dir)` pairs in order, accumulating the event trace, and stops
at the first failure with `some <error message>` (the `?` propagation in the
source's `for` loop). -/
def runRequests (env : Env) (table : PartitionTable) :
    List (Nat × String) → List Ev × Option String
  | [] => ([], none)
  | (part_num, dst_dir) :: rest =>
    let r := processOne env table part_num dst_dir
    match r.2 with
    | some e => (r.1, some e)
    | none =>
      let tail := runRequests env table rest
      (r.1 ++ tail.1, tail.2)

/-- Source `extract_image_partitions`: reads the partition table (assumed parseable;
the parser is the external `PartitionTable::read`), then runs the request
loop.  Returns the event trace and `some <error message>` on failure; on
success the source returns the table read in step 1. -/
def extract_image_partitions (env : Env) (table : PartitionTable)
    (partitions_config : List (Nat × String)) : List Ev × Option String :=
  let r := runRequests env table partitions_config
  (Ev.readTable :: r.1, r.2)

/-- The temp files present in `temp_dir` after a trace of events, given the
files present before it: `createTemp` adds a name, `removeTemp` removes it,
nothing else touches `temp_dir`. -/
def tempStep (acc : List String) : Ev → List String
  | Ev.createTemp p => acc ++ [p]
  | Ev.removeTemp p => acc.erase p
  | _ => acc

/-- Temp files present after a trace, starting from an empty `temp_dir`. -/
def temps (trace : List Ev) : List String :=
  trace.foldl tempStep []

/-- The event block a single successful request contributes to the trace
(used to state the strict per-request ordering). -/
def blockFor (env : Env) (table : PartitionTable) : Nat × String → List Ev
  | (part_num, dst_dir) =>
    match table.partitions.find? (fun p => p.number == part_num) with
    | none => []
    | some _ =>
      let path := temp_name part_num
      let fs_type := FsType.from_blkid_type (trim_model (env.probeOut part_num))
      [Ev.createTemp path, Ev.probe path, Ev.callExtractFs part_num fs_type]
        ++ (extract_filesystem (env.mkdirOk part_num) (env.canonOk part_num)
              (env.runOk part_num) path dst_dir fs_type).1
        ++ [Ev.logInfo part_num dst_dir, Ev.removeTemp path]

/-- A concrete two-partition table (FAT boot partition 1, ext root
partition 2) for evaluating the orchestrator model on closed inputs. -/
def tableS2 : PartitionTable :=
  ⟨[⟨1, 2048, 131072⟩, ⟨2, 133120, 131072⟩], 512⟩

/-- A concrete environment in which every external step succeeds and `blkid`
reports `ext4` for partition 2 and `vfat` for every other partition. -/
def envExt4Vfat : Env :=
  ⟨fun _ => true, fun n => if n = 2 then "ext4" else "vfat",
   fun _ => true, fun _ => true, fun _ => true⟩

/-- A concrete environment in which every external step succeeds but `blkid`
reports `ntfs` for every partition. -/
def envNtfs : Env :=
  ⟨fun _ => true, fun _ => "ntfs", fun _ => true, fun _ => true, fun _ => true⟩

/-- The copy loop copies exactly `remaining` bytes starting at `pos`, clipped
at the end of the source: given enough fuel it returns
`acc ++ (img.drop pos).take remaining`. -/
theorem copyLoop_spec :
    ∀ (fuel : Nat) (img : List Nat) (pos remaining : Nat) (acc : List Nat),
      remaining ≤ fuel →
      copyLoop fuel img pos remaining acc = acc ++ (img.drop pos).take remaining := by
  intro fuel
  induction fuel with
  | zero =>
    intro img pos remaining acc h
    have hr : remaining = 0 := Nat.le_zero.mp h
    simp [copyLoop, hr]
  | succ fuel ih =>
    intro img pos remaining acc h
    by_cases hr : remaining = 0
    · simp [copyLoop, hr]
    · have hrpos : 0 < remaining := Nat.pos_of_ne_zero hr
      have hchunkpos : 0 < CHUNK_SIZE := by decide
      have htoRead : 0 < min remaining CHUNK_SIZE := lt_min hrpos hchunkpos
      set toRead := min remaining CHUNK_SIZE with htr
      set chunk := (img.drop pos).take toRead with hc
      by_cases hlen : chunk.length = 0
      · -- EOF: the source has no bytes left at `pos`.
        have hnil : img.drop pos = [] := by
          have hlen' := hlen
          rw [hc, List.length_take] at hlen'
          rcases Nat.min_eq_zero_iff.mp hlen' with h0 | h0
          · exact absurd h0 (Nat.pos_iff_ne_zero.mp htoRead)
          · exact List.length_eq_zero.mp h0
        simp [copyLoop, hr, ← htr, ← hc, hlen, hnil]
      · -- A nonempty chunk was read; apply the induction hypothesis.
        have hLle : chunk.length ≤ toRead := by
          rw [hc, List.length_take]
          exact Nat.min_le_left _ _
        have hLrem : chunk.length ≤ remaining :=
          le_trans hLle (Nat.min_le_left remaining CHUNK_SIZE)
        have hfuel : remaining - chunk.length ≤ fuel := by
          have hLpos : 0 < chunk.length := Nat.pos_of_ne_zero hlen
          omega
        have hstep := ih img (pos + chunk.length) (remaining - chunk.length) (acc ++ chunk) hfuel
        have hdrop : img.drop (pos + chunk.length) = (img.drop pos).drop chunk.length := by
          rw [List.drop_drop]
        have hkey : chunk ++ ((img.drop pos).drop chunk.length).take (remaining - chunk.length)
            = (img.drop pos).take remaining := by
          by_cases hcase : toRead ≤ (img.drop pos).length
          · -- The read was full: `chunk.length = toRead`.
            have hLeq : chunk.length = toRead := by
              rw [hc, List.length_take]
              exact Nat.min_eq_left hcase
            rw [hLeq, hc]
            have hsplit : remaining = toRead + (remaining - toRead) :=
              (Nat.add_sub_cancel' (Nat.min_le_left remaining CHUNK_SIZE)).symm
            conv_rhs => rw [hsplit, List.take_add]
          · -- The source ended inside the chunk: `chunk` is the whole tail.
            have hlt : (img.drop pos).length ≤ toRead := le_of_not_le hcase
            have hchunk_all : chunk = img.drop pos := by
              simp [hc, List.take_of_length_le hlt]
            have hlenrem : (img.drop pos).length ≤ remaining := by
              calc (img.drop pos).length ≤ toRead := hlt
                _ ≤ remaining := Nat.min_le_left remaining CHUNK_SIZE
            rw [hchunk_all, List.drop_length]
            simp [List.take_of_length_le hlenrem]
        calc copyLoop (fuel + 1) img pos remaining acc
            = copyLoop fuel img (pos + chunk.length) (remaining - chunk.length) (acc ++ chunk) := by
              simp [copyLoop, hr, ← htr, ← hc, hlen]
          _ = (acc ++ chunk) ++ ((img.drop pos).drop chunk.length).take (remaining - chunk.length) := by
              rw [hstep, hdrop]
          _ = acc ++ (img.drop pos).take remaining := by
              rw [List.append_assoc, hkey]

/-- Lemma: `extract_partition_w` in closed form when the byte offset and length fit
in 64 bits: the destination is the `size_bytes`-range of the image starting at
`start_bytes`, with `size_bytes` first reduced modulo the platform word size
(the `as usize` cast). -/
theorem extract_partition_w_eq (w : Nat) (img : List Nat) (start size block_size : Nat)
    (h1 : start * block_size < 2 ^ 64) (h2 : size * block_size < 2 ^ 64) :
    extract_partition_w w img start size block_size
      = (img.drop (start * block_size)).take (size * block_size % 2 ^ w) := by
  unfold extract_partition_w
  rw [Nat.mod_eq_of_lt h1, Nat.mod_eq_of_lt h2]
  exact copyLoop_spec _ img _ _ [] le_rfl

/-- C1: `extract_partition` writes to the destination exactly the bytes
`image[start*block_size .. min(image_length, (start+size)*block_size)]`:
its output is the `size*block_size`-byte slice of the image starting at
`start*block_size`, clipped at the end of the image.  When the image is long
enough the destination has the full `size_bytes` length; when the image ends
early, the call still produces a destination (early EOF is accepted) equal to
the tail of the image from `start_bytes` on.  The hypotheses record that the
partition's byte offset and length fit in 64 bits (the partition-table
invariant). -/
theorem extract_partition_byte_exact (img : List Nat) (start size block_size : Nat)
    (h1 : start * block_size < 2 ^ 64) (h2 : size * block_size < 2 ^ 64) :
    extract_partition img start size block_size
        = (img.drop (start * block_size)).take (size * block_size)
  ∧ (start * block_size + size * block_size ≤ img.length →
      (extract_partition img start size block_size).length = size * block_size)
  ∧ (img.length ≤ start * block_size + size * block_size →
      extract_partition img start size block_size = img.drop (start * block_size)) := by
  have hmain : extract_partition img start size block_size
      = (img.drop (start * block_size)).take (size * block_size) := by
    have h := extract_partition_w_eq 64 img start size block_size h1 h2
    rw [Nat.mod_eq_of_lt h2] at h
    exact h
  refine ⟨hmain, ?_, ?_⟩
  · intro hlong
    rw [hmain, List.length_take, List.length_drop]
    omega
  · intro hshort
    rw [hmain]
    apply List.take_of_length_le
    rw [List.length_drop]
    omega

/-- Witness for `extract_partition_byte_exact` at a concrete image: a 6-byte
image, partition at block 1 of size 2 with block size 2. -/
theorem extract_partition_byte_exact_witness :
    extract_partition [10, 11, 12, 13, 14, 15] 1 2 2 = [12, 13, 14, 15] :=
  ((extract_partition_byte_exact [10, 11, 12, 13, 14, 15] 1 2 2
    (by decide) (by decide)).1).trans (by decide)

/-- C5 counterexample: on a platform whose `usize` is 32 bits wide, the
`size_bytes as usize` cast truncates the copy bound.  For a one-byte image
and a partition of one block with a `2^32`-byte block size, the 32-bit
platform copies nothing while the 64-bit platform copies the image's tail, so
the full `size_bytes` range does NOT bound the copy on every platform. -/
theorem usize_cast_truncates_on_32bit :
    extract_partition_w 32 [7] 0 1 (2 ^ 32) = []
  ∧ extract_partition_w 64 [7] 0 1 (2 ^ 32) = [7]
  ∧ ([] : List Nat) ≠ [7] := by
  refine ⟨by decide, ?_, by decide⟩
  have h := extract_partition_w_eq 64 [7] 0 1 (2 ^ 32) (by decide) (by decide)
  rw [h]
  decide

/-- C5 amended: `start_bytes` and `size_bytes` are computed in 64-bit
arithmetic (exact whenever the products fit in 64 bits), but the copy is
bounded by `size_bytes` reduced modulo `2^w` for the platform's `usize` width
`w` (the `size_bytes as usize` cast); the full `size_bytes` range is used on
platforms with `w ≥ 64`. -/
theorem extract_partition_arith_width (w : Nat) (img : List Nat)
    (start size block_size : Nat)
    (h1 : start * block_size < 2 ^ 64) (h2 : size * block_size < 2 ^ 64) :
    extract_partition_w w img start size block_size
        = (img.drop (start * block_size)).take (size * block_size % 2 ^ w)
  ∧ (64 ≤ w →
      extract_partition_w w img start size block_size
        = (img.drop (start * block_size)).take (size * block_size)) := by
  refine ⟨extract_partition_w_eq w img start size block_size h1 h2, ?_⟩
  intro hw
  rw [extract_partition_w_eq w img start size block_size h1 h2,
    Nat.mod_eq_of_lt (lt_of_lt_of_le h2 (Nat.pow_le_pow_right (by norm_num) hw))]

/-- Witness for `extract_partition_arith_width` on a 64-bit platform. -/
theorem extract_partition_arith_width_witness :
    extract_partition_w 64 [10, 11, 12, 13] 1 1 2 = [12, 13] :=
  ((extract_partition_arith_width 64 [10, 11, 12, 13] 1 1 2
    (by decide) (by decide)).2 (by decide)).trans (by decide)

/-- C2: `FsType::probe` trims surrounding whitespace from blkid's stdout and
maps the trimmed token exactly per the table: the six FAT tokens to `Fat`,
the three ext tokens to `Ext`, the empty string to
`Unknown "empty or unformatted"`, and every other token `t` to `Unknown t`
carrying `t` unchanged; the match is case-sensitive and exact. -/
theorem probe_token_mapping (s : String) :
    ((trim_model s = "vfat" ∨ trim_model s = "fat" ∨ trim_model s = "fat12" ∨ trim_model s = "fat16"
        ∨ trim_model s = "fat32" ∨ trim_model s = "msdos") →
      FsType.probe_model s = FsType.Fat)
  ∧ ((trim_model s = "ext2" ∨ trim_model s = "ext3" ∨ trim_model s = "ext4") →
      FsType.probe_model s = FsType.Ext)
  ∧ (trim_model s = "" → FsType.probe_model s = FsType.Unknown "empty or unformatted")
  ∧ (trim_model s ∉ (["vfat", "fat", "fat12", "fat16", "fat32", "msdos",
        "ext2", "ext3", "ext4", ""] : List String) →
      FsType.probe_model s = FsType.Unknown (trim_model s)) := by
  simp only [FsType.probe_model]
  generalize trim_model s = t
  refine ⟨?_, ?_, ?_, ?_⟩
  · rintro (h | h | h | h | h | h) <;> subst h <;> decide
  · rintro (h | h | h) <;> subst h <;> decide
  · rintro h; subst h; decide
  · intro h
    simp only [List.mem_cons, List.mem_singleton, not_or] at h
    obtain ⟨h1, h2, h3, h4, h5, h6, h7, h8, h9, h10⟩ := h
    simp [FsType.from_blkid_type, h1, h2, h3, h4, h5, h6, h7, h8, h9, h10]

/-- Witness for `probe_token_mapping`: a trailing-newline `ext4` output maps
to `Ext`, and an unknown token round-trips. -/
theorem probe_token_mapping_witness :
    FsType.probe_model "ext4\n" = FsType.Ext
  ∧ FsType.probe_model "ntfs" = FsType.Unknown "ntfs" := by
  constructor
  · exact (probe_token_mapping "ext4\n").2.1 (by decide)
  · have h := (probe_token_mapping "ntfs").2.2.2 (by decide)
    rw [h]
    decide

/-- C9: `get_disk_id` strips exactly one leading `"0x"` prefix from the
string the `sfdisk` subprocess produced and returns the remainder; a string
not beginning with `"0x"` (such as a GPT-style GUID) passes through
unchanged. -/
theorem get_disk_id_strip (s t : String) :
    (s = "0x" ++ t → get_disk_id s = t)
  ∧ (¬ ("0x".data <+: s.data) → get_disk_id s = s) := by
  constructor
  · intro h
    subst h
    simp only [get_disk_id, strip0x, String.data_append]
    rw [if_pos]
    · cases t with
      | mk data => rfl
    · rw [ List.isPrefixOf_iff_prefix]
      exact List.prefix_append _ _
  · intro h
    simp only [get_disk_id, strip0x]
    rw [if_neg]
    simp only [ List.isPrefixOf_iff_prefix]
    exact h

/-- Witness for `get_disk_id_strip`: the MBR id `"0xdeadbeef"` yields
`"deadbeef"`, a GUID passes through, and only one `"0x"` is stripped. -/
theorem get_disk_id_strip_witness :
    get_disk_id "0xdeadbeef" = "deadbeef"
  ∧ get_disk_id "5F2A-9B1C" = "5F2A-9B1C"
  ∧ get_disk_id "0x0xab" = "0xab" :=
  ⟨(get_disk_id_strip "0xdeadbeef" "deadbeef").1 (by decide),
   (get_disk_id_strip "5F2A-9B1C" "").2 (by decide),
   (get_disk_id_strip "0x0xab" "0xab").1 (by decide)⟩

/-- C8: `extract_filesystem` called with an `Unknown` filesystem type (when
directory creation and canonicalisation succeed) fails with an error naming
the unsupported type, and its only effect on the filesystem is the attempted
creation of `dst_dir` with its missing ancestors (plus the read-only path
canonicalisation); no extraction tool is run, so nothing is written into
`dst_dir`.  Moreover, for every filesystem type the `create_dir_all` on
`dst_dir` is the first effect, before the type is inspected. -/
theorem extract_filesystem_unknown (mkdirOk canonOk runOk : Bool)
    (partition_image dst_dir ty : String) :
    (mkdirOk = true → canonOk = true →
      extract_filesystem mkdirOk canonOk runOk partition_image dst_dir (FsType.Unknown ty)
        = ([Ev.createDirAll dst_dir, Ev.canonicalize partition_image],
           some ("cannot extract filesystem: unsupported type " ++ str_debug ty)))
  ∧ (∀ fs_type : FsType,
      (extract_filesystem mkdirOk canonOk runOk partition_image dst_dir fs_type).1.head?
        = some (Ev.createDirAll dst_dir)) := by
  constructor
  · intro hm hc
    subst hm
    subst hc
    simp [extract_filesystem]
  · intro fs_type
    cases mkdirOk <;> cases canonOk <;> cases runOk <;> cases fs_type <;>
      simp [extract_filesystem]

/-- Witness for `extract_filesystem_unknown` at a concrete `ntfs` call. -/
theorem extract_filesystem_unknown_witness :
    extract_filesystem true true true "partition-1.img" "/out" (FsType.Unknown "ntfs")
      = ([Ev.createDirAll "/out", Ev.canonicalize "partition-1.img"],
         some "cannot extract filesystem: unsupported type \"ntfs\"") :=
  ((extract_filesystem_unknown true true true "partition-1.img" "/out" "ntfs").1
    rfl rfl).trans (by decide)

/-- The trace of `extract_filesystem` touches no temp file: folding the
temp-directory state over it leaves the state unchanged. -/
theorem extract_filesystem_foldl_temps (mkdirOk canonOk runOk : Bool)
    (partition_image dst_dir : String) (fs_type : FsType) (acc : List String) :
    (extract_filesystem mkdirOk canonOk runOk partition_image dst_dir fs_type).1.foldl
        tempStep acc = acc := by
  cases mkdirOk <;> cases canonOk <;> cases runOk <;> cases fs_type <;>
    simp [extract_filesystem, tempStep]

/-- The trace of `extract_filesystem` contains no `createTemp` event. -/
theorem extract_filesystem_no_createTemp (mkdirOk canonOk runOk : Bool)
    (partition_image dst_dir p : String) (fs_type : FsType) :
    Ev.createTemp p ∉ (extract_filesystem mkdirOk canonOk runOk
      partition_image dst_dir fs_type).1 := by
  cases mkdirOk <;> cases canonOk <;> cases runOk <;> cases fs_type <;>
    simp [extract_filesystem]

/-- The trace of `extract_filesystem` contains no `callExtractFs` event. -/
theorem extract_filesystem_no_call (mkdirOk canonOk runOk : Bool)
    (partition_image dst_dir : String) (fs_type : FsType) (n : Nat) (fs2 : FsType) :
    Ev.callExtractFs n fs2 ∉ (extract_filesystem mkdirOk canonOk runOk
      partition_image dst_dir fs_type).1 := by
  cases mkdirOk <;> cases canonOk <;> cases runOk <;> cases fs_type <;>
    simp [extract_filesystem]

/-- Splitting the request loop after a successful prefix: the traces
concatenate and the outcome is that of the suffix. -/
theorem runRequests_append (env : Env) (table : PartitionTable) :
    ∀ pre suf : List (Nat × String),
      (runRequests env table pre).2 = none →
      runRequests env table (pre ++ suf)
        = ((runRequests env table pre).1 ++ (runRequests env table suf).1,
           (runRequests env table suf).2) := by
  intro pre
  induction pre with
  | nil =>
    intro suf _
    simp [runRequests]
  | cons hd tl ih =>
    obtain ⟨n, d⟩ := hd
    intro suf h
    cases hp : (processOne env table n d).2 with
    | some e =>
      exfalso
      simp [runRequests, hp] at h
    | none =>
      have h' : (runRequests env table tl).2 = none := by
        simpa [runRequests, hp] using h
      simp [runRequests, hp, ih suf h', List.append_assoc]

/-- Equation for `processOne` when the requested partition number is absent from the
table: no event at all, and the "not found" error. -/
theorem processOne_not_found (env : Env) (table : PartitionTable) (n : Nat) (d : String)
    (hfind : table.partitions.find? (fun p => p.number == n) = none) :
    processOne env table n d
      = ([], some ("partition " ++ Nat.repr n ++ " not found in image")) := by
  unfold processOne
  rw [hfind]

/-- Equation for `processOne` when `blkid` itself fails on the temp image: the temp file
was created and probed, the error propagates, and the temp file is NOT
removed. -/
theorem processOne_probe_failed (env : Env) (table : PartitionTable) (n : Nat)
    (d : String) (q : Partition)
    (hfind : table.partitions.find? (fun p => p.number == n) = some q)
    (hpk : env.probeOk n = false) :
    processOne env table n d
      = ([Ev.createTemp (temp_name n), Ev.probe (temp_name n)],
         some "unable to probe filesystem type with blkid") := by
  unfold processOne
  rw [hfind]
  simp [hpk]

/-- Equation for `processOne` when probing yields an unsupported type: raw-copy, probe,
best-effort unlink of the temp file, then the error naming the partition
number and the observed type. -/
theorem processOne_unsupported (env : Env) (table : PartitionTable) (n : Nat)
    (d : String) (q : Partition)
    (hfind : table.partitions.find? (fun p => p.number == n) = some q)
    (hpk : env.probeOk n = true)
    (hs : (FsType.from_blkid_type (trim_model (env.probeOut n))).is_supported = false) :
    processOne env table n d
      = ([Ev.createTemp (temp_name n), Ev.probe (temp_name n),
          Ev.removeTemp (temp_name n)],
         some ("partition " ++ Nat.repr n ++ " has unsupported filesystem type: "
           ++ fs_debug (FsType.from_blkid_type (trim_model (env.probeOut n))))) := by
  unfold processOne
  rw [hfind]
  simp [hpk, hs]

/-- Equation for `processOne` when the type is supported but `extract_filesystem` fails:
the error propagates and the temp file is NOT removed. -/
theorem processOne_extract_failed (env : Env) (table : PartitionTable) (n : Nat)
    (d : String) (q : Partition) (e : String)
    (hfind : table.partitions.find? (fun p => p.number == n) = some q)
    (hpk : env.probeOk n = true)
    (hs : (FsType.from_blkid_type (trim_model (env.probeOut n))).is_supported = true)
    (hr : (extract_filesystem (env.mkdirOk n) (env.canonOk n) (env.runOk n)
        (temp_name n) d (FsType.from_blkid_type (trim_model (env.probeOut n)))).2 = some e) :
    processOne env table n d
      = ([Ev.createTemp (temp_name n), Ev.probe (temp_name n),
          Ev.callExtractFs n (FsType.from_blkid_type (trim_model (env.probeOut n)))]
            ++ (extract_filesystem (env.mkdirOk n) (env.canonOk n) (env.runOk n)
                (temp_name n) d (FsType.from_blkid_type (trim_model (env.probeOut n)))).1,
         some e) := by
  unfold processOne
  rw [hfind]
  simp [hpk, hs, hr]

/-- Equation for `processOne` on full success: raw-copy, probe, filesystem extraction,
log line, best-effort unlink, in that order. -/
theorem processOne_success (env : Env) (table : PartitionTable) (n : Nat)
    (d : String) (q : Partition)
    (hfind : table.partitions.find? (fun p => p.number == n) = some q)
    (hpk : env.probeOk n = true)
    (hs : (FsType.from_blkid_type (trim_model (env.probeOut n))).is_supported = true)
    (hr : (extract_filesystem (env.mkdirOk n) (env.canonOk n) (env.runOk n)
        (temp_name n) d (FsType.from_blkid_type (trim_model (env.probeOut n)))).2 = none) :
    processOne env table n d
      = ([Ev.createTemp (temp_name n), Ev.probe (temp_name n),
          Ev.callExtractFs n (FsType.from_blkid_type (trim_model (env.probeOut n)))]
            ++ (extract_filesystem (env.mkdirOk n) (env.canonOk n) (env.runOk n)
                (temp_name n) d (FsType.from_blkid_type (trim_model (env.probeOut n)))).1
            ++ [Ev.logInfo n d, Ev.removeTemp (temp_name n)],
         none) := by
  unfold processOne
  rw [hfind]
  simp [hpk, hs, hr]

/-- Temp-file bookkeeping for a single request: a completed request leaves no
temp file, any request leaves at most one, and every temp file it creates is
named `partition-<its number>.img`. -/
theorem processOne_temps (env : Env) (table : PartitionTable) (n : Nat) (d : String) :
    ((processOne env table n d).2 = none → temps (processOne env table n d).1 = [])
  ∧ (temps (processOne env table n d).1).length ≤ 1
  ∧ (∀ p, Ev.createTemp p ∈ (processOne env table n d).1 → p = temp_name n) := by
  cases hfind : table.partitions.find? (fun p => p.number == n) with
  | none =>
    rw [processOne_not_found env table n d hfind]
    simp [temps]
  | some q =>
    cases hpk : env.probeOk n with
    | false =>
      rw [processOne_probe_failed env table n d q hfind hpk]
      simp [temps, tempStep]
    | true =>
      cases hs : (FsType.from_blkid_type (trim_model (env.probeOut n))).is_supported with
      | false =>
        rw [processOne_unsupported env table n d q hfind hpk hs]
        simp [temps, tempStep]
      | true =>
        cases hr : (extract_filesystem (env.mkdirOk n) (env.canonOk n) (env.runOk n)
            (temp_name n) d (FsType.from_blkid_type (trim_model (env.probeOut n)))).2 with
        | some e =>
          rw [processOne_extract_failed env table n d q e hfind hpk hs hr]
          refine ⟨by simp, ?_, ?_⟩
          · rw [temps, List.foldl_append, extract_filesystem_foldl_temps]
            simp [tempStep]
          · intro p hp
            simp only [List.cons_append, List.nil_append, List.mem_cons, List.mem_append,
              Ev.createTemp.injEq, reduceCtorEq, false_or, or_false] at hp
            rcases hp with hp | hp
            · exact hp
            · exact absurd hp (extract_filesystem_no_createTemp _ _ _ _ _ _ _)
        | none =>
          rw [processOne_success env table n d q hfind hpk hs hr]
          refine ⟨?_, ?_, ?_⟩
          · intro _
            rw [temps, List.foldl_append, List.foldl_append, extract_filesystem_foldl_temps]
            simp [tempStep]
          · rw [temps, List.foldl_append, List.foldl_append, extract_filesystem_foldl_temps]
            simp [tempStep]
          · intro p hp
            simp only [List.cons_append, List.nil_append, List.append_assoc, List.mem_cons,
              List.mem_append, Ev.createTemp.injEq, reduceCtorEq, List.not_mem_nil,
              false_or, or_false] at hp
            rcases hp with hp | hp
            · exact hp
            · exact absurd hp (extract_filesystem_no_createTemp _ _ _ _ _ _ _)

/-- Temp-file bookkeeping for the whole request loop: a completed loop leaves
no temp file, at most one temp file is ever retained (the failing request's
own — temp files of already-processed partitions are always removed), and
every temp file created is named `partition-<decimal-number>.img`. -/
theorem runRequests_temps (env : Env) (table : PartitionTable) :
    ∀ reqs : List (Nat × String),
      ((runRequests env table reqs).2 = none → temps (runRequests env table reqs).1 = [])
    ∧ (temps (runRequests env table reqs).1).length ≤ 1
    ∧ (∀ p, Ev.createTemp p ∈ (runRequests env table reqs).1 → ∃ n, p = temp_name n) := by
  intro reqs
  induction reqs with
  | nil => simp [runRequests, temps]
  | cons hd tl ih =>
    obtain ⟨n, d⟩ := hd
    obtain ⟨hp1, hp2, hp3⟩ := processOne_temps env table n d
    obtain ⟨ih1, ih2, ih3⟩ := ih
    cases hp : (processOne env table n d).2 with
    | some e =>
      have htr : (runRequests env table ((n, d) :: tl)).1
          = (processOne env table n d).1 := by
        simp [runRequests, hp]
      have herr : (runRequests env table ((n, d) :: tl)).2 = some e := by
        simp [runRequests, hp]
      refine ⟨?_, ?_, ?_⟩
      · intro hnone
        rw [herr] at hnone
        cases hnone
      · rw [htr]
        exact hp2
      · intro p hmem
        rw [htr] at hmem
        exact ⟨n, hp3 p hmem⟩
    | none =>
      have hempty := hp1 hp
      have htr : (runRequests env table ((n, d) :: tl)).1
          = (processOne env table n d).1 ++ (runRequests env table tl).1 := by
        simp [runRequests, hp]
      have herr : (runRequests env table ((n, d) :: tl)).2
          = (runRequests env table tl).2 := by
        simp [runRequests, hp]
      have htemps : temps ((processOne env table n d).1 ++ (runRequests env table tl).1)
          = temps (runRequests env table tl).1 := by
        rw [temps, List.foldl_append]
        rw [temps] at hempty
        rw [hempty]
        rfl
      refine ⟨?_, ?_, ?_⟩
      · intro hnone
        rw [htr, htemps]
        rw [herr] at hnone
        exact ih1 hnone
      · rw [htr, htemps]
        exact ih2
      · intro p hmem
        rw [htr] at hmem
        rcases List.mem_append.mp hmem with hm | hm
        · exact ⟨n, hp3 p hm⟩
        · exact ih3 p hm

/-- C4: after a successful `extract_image_partitions` call, `temp_dir`
contains none of the `partition-<N>.img` files the call created; the only
paths the call ever writes inside `temp_dir` are files named
`partition-<decimal-number>.img`; and in every run at most one temp file
is retained (the currently-failing request's own), so temp files of
already-processed partitions are never retained even when a later partition
fails. -/
theorem temp_dir_invariants (env : Env) (table : PartitionTable)
    (reqs : List (Nat × String)) :
    ((extract_image_partitions env table reqs).2 = none →
      temps (extract_image_partitions env table reqs).1 = [])
  ∧ (temps (extract_image_partitions env table reqs).1).length ≤ 1
  ∧ (∀ p, Ev.createTemp p ∈ (extract_image_partitions env table reqs).1 →
      ∃ n, p = temp_name n) := by
  obtain ⟨h1, h2, h3⟩ := runRequests_temps env table reqs
  refine ⟨?_, ?_, ?_⟩
  · intro h
    exact h1 h
  · exact h2
  · intro p hp
    have hp' : Ev.createTemp p ∈ Ev.readTable :: (runRequests env table reqs).1 := hp
    rcases List.mem_cons.mp hp' with hm | hm
    · simp at hm
    · exact h3 p hm

/-- Witness for `temp_dir_invariants`: a successful two-request run leaves
`temp_dir` empty. -/
theorem temp_dir_invariants_witness :
    (extract_image_partitions envExt4Vfat tableS2 [(2, "/r"), (1, "/b")]).2 = none
  ∧ temps (extract_image_partitions envExt4Vfat tableS2 [(2, "/r"), (1, "/b")]).1 = [] :=
  ⟨by decide,
   (temp_dir_invariants envExt4Vfat tableS2 [(2, "/r"), (1, "/b")]).1 (by decide)⟩

/-- Any `callExtractFs` event a single request emits carries a supported
filesystem type. -/
theorem processOne_call_supported (env : Env) (table : PartitionTable) (n : Nat)
    (d : String) (m : Nat) (fs_type : FsType)
    (hmem : Ev.callExtractFs m fs_type ∈ (processOne env table n d).1) :
    fs_type.is_supported = true := by
  cases hfind : table.partitions.find? (fun p => p.number == n) with
  | none =>
    rw [processOne_not_found env table n d hfind] at hmem
    simp at hmem
  | some q =>
    cases hpk : env.probeOk n with
    | false =>
      rw [processOne_probe_failed env table n d q hfind hpk] at hmem
      simp at hmem
    | true =>
      cases hs : (FsType.from_blkid_type (trim_model (env.probeOut n))).is_supported with
      | false =>
        rw [processOne_unsupported env table n d q hfind hpk hs] at hmem
        simp at hmem
      | true =>
        cases hr : (extract_filesystem (env.mkdirOk n) (env.canonOk n) (env.runOk n)
            (temp_name n) d (FsType.from_blkid_type (trim_model (env.probeOut n)))).2 with
        | some e =>
          rw [processOne_extract_failed env table n d q e hfind hpk hs hr] at hmem
          simp only [List.cons_append, List.nil_append, List.mem_cons, List.mem_append,
            Ev.callExtractFs.injEq, reduceCtorEq, false_or, or_false] at hmem
          rcases hmem with ⟨_, hfs⟩ | hmem
          · rw [hfs]
            exact hs
          · exact absurd hmem (extract_filesystem_no_call _ _ _ _ _ _ _ _)
        | none =>
          rw [processOne_success env table n d q hfind hpk hs hr] at hmem
          simp only [List.cons_append, List.nil_append, List.append_assoc, List.mem_cons,
            List.mem_append, Ev.callExtractFs.injEq, reduceCtorEq, List.not_mem_nil,
            false_or, or_false] at hmem
          rcases hmem with ⟨_, hfs⟩ | hmem
          · rw [hfs]
            exact hs
          · exact absurd hmem (extract_filesystem_no_call _ _ _ _ _ _ _ _)

/-- Any `callExtractFs` event of the whole request loop carries a supported
filesystem type. -/
theorem runRequests_call_supported (env : Env) (table : PartitionTable) :
    ∀ (reqs : List (Nat × String)) (m : Nat) (fs_type : FsType),
      Ev.callExtractFs m fs_type ∈ (runRequests env table reqs).1 →
      fs_type.is_supported = true := by
  intro reqs
  induction reqs with
  | nil =>
    intro m fs_type h
    simp [runRequests] at h
  | cons hd tl ih =>
    obtain ⟨n, d⟩ := hd
    intro m fs_type h
    cases hp : (processOne env table n d).2 with
    | some e =>
      have htr : (runRequests env table ((n, d) :: tl)).1
          = (processOne env table n d).1 := by
        simp [runRequests, hp]
      rw [htr] at h
      exact processOne_call_supported env table n d m fs_type h
    | none =>
      have htr : (runRequests env table ((n, d) :: tl)).1
          = (processOne env table n d).1 ++ (runRequests env table tl).1 := by
        simp [runRequests, hp]
      rw [htr] at h
      rcases List.mem_append.mp h with hm | hm
      · exact processOne_call_supported env table n d m fs_type hm
      · exact ih m fs_type hm

/-- C10: in every run of `extract_image_partitions`, `extract_filesystem` is
invoked only with a filesystem type for which `is_supported` returned true
(`Fat` or `Ext`), so the `Unknown` bail branch inside `extract_filesystem`
("cannot extract filesystem: unsupported type") is unreachable from the
orchestrator. -/
theorem orchestrator_calls_only_supported (env : Env) (table : PartitionTable)
    (reqs : List (Nat × String)) (part_num : Nat) (fs_type : FsType)
    (hmem : Ev.callExtractFs part_num fs_type
      ∈ (extract_image_partitions env table reqs).1) :
    fs_type.is_supported = true := by
  have hmem' : Ev.callExtractFs part_num fs_type
      ∈ Ev.readTable :: (runRequests env table reqs).1 := hmem
  rcases List.mem_cons.mp hmem' with hm | hm
  · simp at hm
  · exact runRequests_call_supported env table reqs part_num fs_type hm

/-- Witness for `orchestrator_calls_only_supported`: the concrete run invokes
the filesystem extractor for partition 2 with `Ext`, a supported type. -/
theorem orchestrator_calls_only_supported_witness :
    Ev.callExtractFs 2 FsType.Ext
        ∈ (extract_image_partitions envExt4Vfat tableS2 [(2, "/r")]).1
  ∧ FsType.Ext.is_supported = true :=
  ⟨by decide,
   orchestrator_calls_only_supported envExt4Vfat tableS2 [(2, "/r")] 2 FsType.Ext
     (by decide)⟩

/-- A request that completes contributes exactly its `blockFor` event block:
raw-copy, probe, extractor invocation with its internal effects, log line,
temp cleanup, in that order. -/
theorem processOne_success_block (env : Env) (table : PartitionTable) (n : Nat)
    (d : String) (h : (processOne env table n d).2 = none) :
    (processOne env table n d).1 = blockFor env table (n, d) := by
  cases hfind : table.partitions.find? (fun p => p.number == n) with
  | none =>
    rw [processOne_not_found env table n d hfind] at h
    simp at h
  | some q =>
    cases hpk : env.probeOk n with
    | false =>
      rw [processOne_probe_failed env table n d q hfind hpk] at h
      simp at h
    | true =>
      cases hs : (FsType.from_blkid_type (trim_model (env.probeOut n))).is_supported with
      | false =>
        rw [processOne_unsupported env table n d q hfind hpk hs] at h
        simp at h
      | true =>
        cases hr : (extract_filesystem (env.mkdirOk n) (env.canonOk n) (env.runOk n)
            (temp_name n) d (FsType.from_blkid_type (trim_model (env.probeOut n)))).2 with
        | some e =>
          rw [processOne_extract_failed env table n d q e hfind hpk hs hr] at h
          simp at h
        | none =>
          rw [processOne_success env table n d q hfind hpk hs hr]
          simp only [blockFor]
          rw [hfind]

/-- On success the request loop's trace is the concatenation of the
per-request blocks, in request-list order. -/
theorem runRequests_success_trace (env : Env) (table : PartitionTable) :
    ∀ reqs : List (Nat × String),
      (runRequests env table reqs).2 = none →
      (runRequests env table reqs).1 = ((reqs.map (blockFor env table)).flatten) := by
  intro reqs
  induction reqs with
  | nil =>
    intro _
    simp [runRequests]
  | cons hd tl ih =>
    obtain ⟨n, d⟩ := hd
    intro h
    cases hp : (processOne env table n d).2 with
    | some e =>
      exfalso
      simp [runRequests, hp] at h
    | none =>
      have h' : (runRequests env table tl).2 = none := by
        simpa [runRequests, hp] using h
      have htr : (runRequests env table ((n, d) :: tl)).1
          = (processOne env table n d).1 ++ (runRequests env table tl).1 := by
        simp [runRequests, hp]
      rw [htr, processOne_success_block env table n d hp, ih h']
      simp

/-- C7: within one successful orchestrator call, the effects occur in strict
sequence — the partition table is read first, then for each request in
request-list order the steps raw-copy → probe → extract (create destination
directory, canonicalise, run the extraction tool) → log → cleanup run in that
order; the log entry for a partition is emitted after its extraction
completes and before any work on the next requested partition begins. -/
theorem orchestrator_strict_ordering (env : Env) (table : PartitionTable)
    (reqs : List (Nat × String))
    (h : (extract_image_partitions env table reqs).2 = none) :
    (extract_image_partitions env table reqs).1
      = Ev.readTable :: ((reqs.map (blockFor env table)).flatten) := by
  have h' : (runRequests env table reqs).2 = none := h
  show Ev.readTable :: (runRequests env table reqs).1 = _
  rw [runRequests_success_trace env table reqs h']

/-- Witness for `orchestrator_strict_ordering`: the full per-event trace of a
successful two-request run (partition 2 strictly before partition 1). -/
theorem orchestrator_strict_ordering_witness :
    (extract_image_partitions envExt4Vfat tableS2 [(2, "/r"), (1, "/b")]).1
      = [Ev.readTable,
         Ev.createTemp "partition-2.img", Ev.probe "partition-2.img",
         Ev.callExtractFs 2 FsType.Ext, Ev.createDirAll "/r",
         Ev.canonicalize "partition-2.img", Ev.runDebugfs "/r",
         Ev.logInfo 2 "/r", Ev.removeTemp "partition-2.img",
         Ev.createTemp "partition-1.img", Ev.probe "partition-1.img",
         Ev.callExtractFs 1 FsType.Fat, Ev.createDirAll "/b",
         Ev.canonicalize "partition-1.img", Ev.runMcopy "/b",
         Ev.logInfo 1 "/b", Ev.removeTemp "partition-1.img"] :=
  (orchestrator_strict_ordering envExt4Vfat tableS2 [(2, "/r"), (1, "/b")]
    (by decide)).trans (by decide)

/-- C3: if (after a successful prefix of requests) probing partition
`part_num` yields an unsupported filesystem type, the orchestrator deletes
`temp_dir/partition-<part_num>.img` (a best-effort unlink, rendered as the
`removeTemp` event) before returning an error whose message names the
partition number and the observed type; the trace ends with that partition's
create/probe/remove events, so no temp file is created for any later
request. -/
theorem unsupported_fs_cleanup_and_error (env : Env) (table : PartitionTable)
    (pre : List (Nat × String)) (part_num : Nat) (dst_dir : String)
    (rest : List (Nat × String)) (q : Partition)
    (hpre : (runRequests env table pre).2 = none)
    (hfind : table.partitions.find? (fun p => p.number == part_num) = some q)
    (hpk : env.probeOk part_num = true)
    (hs : (FsType.from_blkid_type (trim_model (env.probeOut part_num))).is_supported
      = false) :
    extract_image_partitions env table (pre ++ (part_num, dst_dir) :: rest)
      = (Ev.readTable :: ((runRequests env table pre).1
           ++ [Ev.createTemp (temp_name part_num), Ev.probe (temp_name part_num),
               Ev.removeTemp (temp_name part_num)]),
         some ("partition " ++ Nat.repr part_num ++ " has unsupported filesystem type: "
           ++ fs_debug (FsType.from_blkid_type (trim_model (env.probeOut part_num))))) := by
  have happ := runRequests_append env table pre ((part_num, dst_dir) :: rest) hpre
  have hone := processOne_unsupported env table part_num dst_dir q hfind hpk hs
  have hcons : runRequests env table ((part_num, dst_dir) :: rest)
      = ([Ev.createTemp (temp_name part_num), Ev.probe (temp_name part_num),
          Ev.removeTemp (temp_name part_num)],
         some ("partition " ++ Nat.repr part_num ++ " has unsupported filesystem type: "
           ++ fs_debug (FsType.from_blkid_type (trim_model (env.probeOut part_num))))) := by
    simp [runRequests, hone]
  show (Ev.readTable :: (runRequests env table (pre ++ (part_num, dst_dir) :: rest)).1,
      (runRequests env table (pre ++ (part_num, dst_dir) :: rest)).2) = _
  rw [happ, hcons]

/-- Witness for `unsupported_fs_cleanup_and_error`: an `ntfs` partition 1
makes the run fail after removing `partition-1.img`; partition 2's temp file
is never created. -/
theorem unsupported_fs_cleanup_and_error_witness :
    extract_image_partitions envNtfs tableS2 [(1, "/b"), (2, "/r")]
      = ([Ev.readTable, Ev.createTemp "partition-1.img", Ev.probe "partition-1.img",
          Ev.removeTemp "partition-1.img"],
         some "partition 1 has unsupported filesystem type: Unknown(\"ntfs\")") :=
  (unsupported_fs_cleanup_and_error envNtfs tableS2 [] 1 "/b" [(2, "/r")]
      ⟨1, 2048, 131072⟩ (by decide) (by decide) (by decide) (by decide)).trans (by decide)

/-- C6: a request naming a partition number absent from the table (reached
after a successful prefix) makes `extract_image_partitions` fail with
"partition <n> not found in image", and it contributes no event at all — in
particular no temp file is created for that request or any later one. -/
theorem missing_partition_not_found (env : Env) (table : PartitionTable)
    (pre : List (Nat × String)) (part_num : Nat) (dst_dir : String)
    (rest : List (Nat × String))
    (hpre : (runRequests env table pre).2 = none)
    (habsent : ∀ p ∈ table.partitions, p.number ≠ part_num) :
    extract_image_partitions env table (pre ++ (part_num, dst_dir) :: rest)
      = (Ev.readTable :: (runRequests env table pre).1,
         some ("partition " ++ Nat.repr part_num ++ " not found in image")) := by
  have hfind : table.partitions.find? (fun p => p.number == part_num) = none := by
    rw [List.find?_eq_none]
    intro p hp
    simpa using habsent p hp
  have hone := processOne_not_found env table part_num dst_dir hfind
  have hcons : runRequests env table ((part_num, dst_dir) :: rest)
      = ([], some ("partition " ++ Nat.repr part_num ++ " not found in image")) := by
    simp [runRequests, hone]
  have happ := runRequests_append env table pre ((part_num, dst_dir) :: rest) hpre
  show (Ev.readTable :: (runRequests env table (pre ++ (part_num, dst_dir) :: rest)).1,
      (runRequests env table (pre ++ (part_num, dst_dir) :: rest)).2) = _
  rw [happ, hcons]
  simp

/-- Witness for `missing_partition_not_found`: requesting absent partition 7
fails with the expected message before creating any temp file. -/
theorem missing_partition_not_found_witness :
    extract_image_partitions envExt4Vfat tableS2 [(7, "/x")]
      = ([Ev.readTable], some "partition 7 not found in image") :=
  (missing_partition_not_found envExt4Vfat tableS2 [] 7 "/x" [] (by decide)
    (by decide)).trans (by decide)

end Rugix
